import Mathlib

/-!
Verification of the password-keeper repository (GophKeeper): a shallow
embedding of its envelope-encryption layer (internal/crypto), its item
repository (internal/storage/postgres.go together with the SQL schema in
migrations/001_init_schema.up.sql) and its request handlers
(internal/server), with theorems settling the specification claims.

Bytes are modelled as `Nat` (each < 256 in the real program; the proofs do
not depend on the bound), byte strings as `List Nat`, timestamps as `Nat`
(Unix seconds), and the database as the list of its rows.  Randomness is
passed in explicitly as a stream `Nat → Nat`.  The AES-GCM primitive and
the PBKDF2 key-derivation function come from the Go standard library, not
from this repository; they are modelled as interface structures (`GCM`,
`KDF`) carrying exactly the properties the library guarantees: GCM sealing
adds a 16-byte overhead (the trailing integrity tag) and opening a sealed
message under the same key and nonce returns the plaintext; PBKDF2 returns
a key of the requested 32-byte length.  Concrete demonstration instances
(`demoGCM`, `demoKDF`) witness that the interfaces are inhabited.
-/

namespace GophKeeper

namespace Crypto

/-- KeySize from internal/crypto: 32 bytes (AES-256). -/
def KeySize : Nat := 32

/-- SaltSize from internal/crypto: 32 bytes. -/
def SaltSize : Nat := 32

/-- NonceSize from internal/crypto: 12 bytes (AES-GCM standard nonce). -/
def NonceSize : Nat := 12

/-- Overhead of gcm.Seal: the 16-byte integrity tag appended to the ciphertext. -/
def TagSize : Nat := 16

/-- Errors of the crypto package.  `invalidKeySize` models the error
returned by aes.NewCipher for an unsupported key length;
`invalidCiphertext` is ErrInvalidCiphertext ("invalid ciphertext");
`decryptionFailed` is ErrDecryptionFailed ("decryption failed"), the
authentication failure of gcm.Open. -/
inductive CryptoError
  | invalidKeySize
  | invalidCiphertext
  | decryptionFailed
deriving DecidableEq, Repr

/-- Interface of the AES-GCM primitive from crypto/cipher: `seal key nonce
plaintext` is the authenticated ciphertext (plaintext encrypted plus the
trailing 16-byte tag), `openG key nonce ct` authenticates and decrypts,
returning `none` when the integrity tag does not verify.  The two laws are
the library guarantees the repository relies on. -/
structure GCM where
  gcmSeal : List Nat → List Nat → List Nat → List Nat
  gcmOpen : List Nat → List Nat → List Nat → Option (List Nat)
  gcmSeal_length : ∀ key nonce p, (gcmSeal key nonce p).length = p.length + TagSize
  gcmOpen_gcmSeal : ∀ key nonce p, gcmOpen key nonce (gcmSeal key nonce p) = some p

/-- Interface of PBKDF2 from golang.org/x/crypto/pbkdf2: a deterministic
derivation from password and salt to a key of length KeySize. -/
structure KDF where
  derive : String → List Nat → List Nat
  derive_length : ∀ password salt, (derive password salt).length = KeySize

/-- Valid AES key lengths accepted by aes.NewCipher. -/
def validKeySize (key : List Nat) : Bool :=
  key.length = 16 || key.length = 24 || key.length = 32

/-- GenerateSalt: reads SaltSize bytes from the randomness stream. -/
def GenerateSalt (rand : Nat → Nat) : List Nat :=
  (List.range SaltSize).map rand

/-- DeriveKey: derives an encryption key from a master password and salt
using PBKDF2 (KeySize bytes). -/
def DeriveKey (K : KDF) (masterPassword : String) (salt : List Nat) : List Nat :=
  K.derive masterPassword salt

/-- Encrypt from internal/crypto: creates the AES cipher (failing on an
invalid key size), draws a fresh NonceSize-byte nonce from the randomness
stream, and returns nonce prefixed to the gcm.Seal output. -/
def Encrypt (G : GCM) (rand : Nat → Nat) (plaintext key : List Nat) :
    Except CryptoError (List Nat) :=
  if validKeySize key then
    let nonce := (List.range NonceSize).map rand
    Except.ok (nonce ++ G.gcmSeal key nonce plaintext)
  else
    Except.error CryptoError.invalidKeySize

/-- Decrypt from internal/crypto: creates the AES cipher (failing on an
invalid key size), rejects inputs shorter than NonceSize with
ErrInvalidCiphertext, splits off the nonce, and delegates to gcm.Open,
mapping its failure to ErrDecryptionFailed. -/
def Decrypt (G : GCM) (ciphertext key : List Nat) : Except CryptoError (List Nat) :=
  if validKeySize key then
    if ciphertext.length < NonceSize then
      Except.error CryptoError.invalidCiphertext
    else
      match G.gcmOpen key (ciphertext.take NonceSize) (ciphertext.drop NonceSize) with
      | some plaintext => Except.ok plaintext
      | none => Except.error CryptoError.decryptionFailed
  else
    Except.error CryptoError.invalidKeySize

/-- EncryptWithPassword from internal/crypto: generates a salt, derives the
key from the password and salt, encrypts, and prepends the salt.  The
randomness stream first yields the salt bytes, then the nonce bytes. -/
def EncryptWithPassword (G : GCM) (K : KDF) (rand : Nat → Nat)
    (plaintext : List Nat) (password : String) : Except CryptoError (List Nat) :=
  let salt := GenerateSalt rand
  let key := DeriveKey K password salt
  (Encrypt G (fun i => rand (SaltSize + i)) plaintext key).map (fun ct => salt ++ ct)

/-- DecryptWithPassword from internal/crypto: rejects blobs shorter than
SaltSize + NonceSize with ErrInvalidCiphertext, splits off the salt,
derives the key, and delegates to Decrypt. -/
def DecryptWithPassword (G : GCM) (K : KDF) (ciphertext : List Nat)
    (password : String) : Except CryptoError (List Nat) :=
  if ciphertext.length < SaltSize + NonceSize then
    Except.error CryptoError.invalidCiphertext
  else
    Decrypt G (ciphertext.drop SaltSize) (DeriveKey K password (ciphertext.take SaltSize))

/-- Demonstration GCM instance (stands in for the real AES-GCM in concrete
evaluations): the tag is 16 zero bytes and opening strips it when present. -/
def demoGCM : GCM where
  gcmSeal := fun _ _ p => p ++ List.replicate TagSize 0
  gcmOpen := fun _ _ ct =>
    if TagSize ≤ ct.length then some (ct.take (ct.length - TagSize)) else none
  gcmSeal_length := by
    intro key nonce p
    simp [TagSize]
  gcmOpen_gcmSeal := by
    intro key nonce p
    simp [TagSize]

/-- Demonstration KDF instance: a 32-byte key from summing password bytes
with the salt head. -/
def demoKDF : KDF where
  derive := fun password salt =>
    List.replicate KeySize ((password.length + salt.headD 0) % 256)
  derive_length := by
    intro password salt
    simp [KeySize]

end Crypto

namespace Storage

/-- Errors of the storage package.  `itemNotFound` is ErrItemNotFound
("item not found"), `versionConflict` is ErrVersionConflict ("version
conflict"), and `uniqueViolation` models the raw unique-constraint
violation the database driver reports when an INSERT collides with the
primary key or with UNIQUE(user_id, name). -/
inductive StorageError
  | itemNotFound
  | versionConflict
  | uniqueViolation
deriving DecidableEq, Repr

/-- DataItem from internal/models: one row of the data_items table.
`type` is the DataType string, `metadata` the tags mapping, `version` the
BIGINT version counter, `deleted` the tombstone flag.  Timestamps are Unix
seconds. -/
structure DataItem where
  id : String
  userID : String
  type : String
  name : String
  encryptedData : List Nat
  metadata : List (String × String)
  createdAt : Nat
  updatedAt : Nat
  version : Nat
  deleted : Bool
deriving DecidableEq, Repr

/-- metadataToJSON from postgres.go: the value written to the JSONB
metadata column — SQL NULL (`none`) for an empty map, the map itself
otherwise. -/
def metadataToJSON (metadata : List (String × String)) : Option (List (String × String)) :=
  if metadata.length = 0 then none else some metadata

/-- Text of the JSONB metadata column as scanned into a sql.NullString:
the empty string for SQL NULL, the (non-empty) JSON rendering otherwise.
The rendering's exact content is irrelevant because jsonToMetadata
discards every non-empty string, so a fixed non-empty stand-in is used. -/
def metadataJSONText : Option (List (String × String)) → String
  | none => ""
  | some _ => "json"

/-- jsonToMetadata from postgres.go, verbatim: returns a fresh empty map
whether or not the scanned JSON string is empty — the stored tags are
never parsed back. -/
def jsonToMetadata (jsonStr : String) : List (String × String) :=
  if jsonStr = "" then [] else []

/-- Row scan shared by GetItem, GetItemByName, ListItems and
GetItemsModifiedAfter: all columns are copied and the metadata column goes
through jsonToMetadata. -/
def readItem (r : DataItem) : DataItem :=
  { r with metadata := jsonToMetadata (metadataJSONText (metadataToJSON r.metadata)) }

/-- The database: the rows of the data_items table, in insertion order. -/
abbrev DB := List DataItem

/-- Row prepared by CreateItem before the INSERT: the id is freshly
assigned when the item carries none, created-at/updated-at are stamped
with the current instant, and version is set to 1. -/
def newRow (item : DataItem) (newId : String) (now : Nat) : DataItem :=
  { item with
      id := if item.id = "" then newId else item.id,
      createdAt := now, updatedAt := now, version := 1 }

/-- Unique-constraint check of the INSERT: an existing row collides on the
primary key (id) or on UNIQUE(user_id, name); the deleted flag plays no
role, so tombstoned rows collide too. -/
def insertConflict (db : DB) (row : DataItem) : Bool :=
  db.any (fun r => decide (r.id = row.id) || decide (r.userID = row.userID ∧ r.name = row.name))

/-- CreateItem from postgres.go: prepares the row (fresh id, timestamps,
version 1) and INSERTs it; the INSERT fails with the unique-constraint
violation when insertConflict holds.  Returns the new database and the row
as inserted. -/
def CreateItem (db : DB) (item : DataItem) (newId : String) (now : Nat) :
    DB × Except StorageError DataItem :=
  if insertConflict db (newRow item newId now) then
    (db, Except.error StorageError.uniqueViolation)
  else
    (db ++ [newRow item newId now], Except.ok (newRow item newId now))

/-- GetItem from postgres.go: SELECT ... WHERE id = itemID AND user_id =
userID AND deleted = FALSE; no row gives ErrItemNotFound, a row is scanned
through readItem. -/
def GetItem (db : DB) (userID itemID : String) : Except StorageError DataItem :=
  match db.find? (fun r => decide (r.id = itemID ∧ r.userID = userID ∧ r.deleted = false)) with
  | some r => Except.ok (readItem r)
  | none => Except.error StorageError.itemNotFound

/-- GetItemByName from postgres.go: SELECT ... WHERE user_id = userID AND
name = name AND deleted = FALSE; same contract as GetItem. -/
def GetItemByName (db : DB) (userID name : String) : Except StorageError DataItem :=
  match db.find? (fun r => decide (r.userID = userID ∧ r.name = name ∧ r.deleted = false)) with
  | some r => Except.ok (readItem r)
  | none => Except.error StorageError.itemNotFound

/-- Ascending order on updated-at (ORDER BY updated_at ASC). -/
def byUpdatedAtAsc (a b : DataItem) : Prop := a.updatedAt ≤ b.updatedAt

instance : DecidableRel byUpdatedAtAsc := fun a b => Nat.decLe a.updatedAt b.updatedAt

/-- Descending order on created-at (ORDER BY created_at DESC). -/
def byCreatedAtDesc (a b : DataItem) : Prop := b.createdAt ≤ a.createdAt

instance : DecidableRel byCreatedAtDesc := fun a b => Nat.decLe b.createdAt a.createdAt

/-- ListItems from postgres.go: the non-tombstoned rows of the owner,
restricted to one type when the filter is non-empty, ordered by created-at
descending, each scanned through readItem. -/
def ListItems (db : DB) (userID : String) (dataType : String) : List DataItem :=
  let rows :=
    if dataType ≠ "" then
      db.filter (fun r => decide (r.userID = userID ∧ r.type = dataType ∧ r.deleted = false))
    else
      db.filter (fun r => decide (r.userID = userID ∧ r.deleted = false))
  (List.insertionSort byCreatedAtDesc rows).map readItem

/-- Row predicate of the conditional UPDATE in UpdateItem: WHERE id AND
user_id AND version = expected AND deleted = FALSE. -/
def updMatches (item : DataItem) (r : DataItem) : Bool :=
  decide (r.id = item.id ∧ r.userID = item.userID ∧ r.version = item.version ∧ r.deleted = false)

/-- Effect of the UPDATE's SET clause on a matched row: new ciphertext and
tags, updated-at refreshed, version = version + 1. -/
def applyUpdate (item : DataItem) (now : Nat) (r : DataItem) : DataItem :=
  { r with
      encryptedData := item.encryptedData,
      metadata := item.metadata,
      updatedAt := now,
      version := r.version + 1 }

/-- UpdateItem from postgres.go: one conditional UPDATE applying the SET
clause to every row matching (id, user_id, expected version, not deleted);
zero affected rows yield ErrVersionConflict.  Returns the database after
the statement together with the result. -/
def UpdateItem (db : DB) (item : DataItem) (now : Nat) :
    DB × Except StorageError Unit :=
  let db2 := db.map (fun r => if updMatches item r then applyUpdate item now r else r)
  if db.countP (updMatches item) = 0 then
    (db2, Except.error StorageError.versionConflict)
  else
    (db2, Except.ok ())

/-- DeleteItem from postgres.go: UPDATE ... SET deleted = TRUE, updated_at
= now WHERE id AND user_id; never an error, zero matched rows included. -/
def DeleteItem (db : DB) (userID itemID : String) (now : Nat) : DB :=
  db.map (fun r =>
    if decide (r.id = itemID ∧ r.userID = userID) then
      { r with deleted := true, updatedAt := now }
    else r)

/-- GetItemsModifiedAfter from postgres.go: SELECT ... WHERE user_id AND
updated_at > timestamp (tombstoned rows included) ORDER BY updated_at ASC,
each row scanned through readItem. -/
def GetItemsModifiedAfter (db : DB) (userID : String) (timestamp : Nat) : List DataItem :=
  (List.insertionSort byUpdatedAtAsc
      (db.filter (fun r => decide (r.userID = userID ∧ timestamp < r.updatedAt)))).map readItem

/-- Primary-key invariant of the data_items table: row ids are distinct. -/
def idsNodup (db : DB) : Prop := (db.map (fun r => r.id)).Nodup

/-- UNIQUE(user_id, name) invariant of the data_items table: the
(owner, name) pairs of the rows are distinct (tombstoned rows included,
exactly as the schema declares). -/
def ownerNameNodup (db : DB) : Prop := (db.map (fun r => (r.userID, r.name))).Nodup

/-- Both UpdateItem calls of an optimistic-concurrency race, executed in
either order; each call is one atomic conditional UPDATE.  Returns the
final database and the two results (first component: the result of call
`a`). -/
def runTwoUpdates (db : DB) (a b : DataItem) (ta tb : Nat) (aFirst : Bool) :
    DB × Except StorageError Unit × Except StorageError Unit :=
  if aFirst then
    let ra := UpdateItem db a ta
    let rb := UpdateItem ra.1 b tb
    (rb.1, ra.2, rb.2)
  else
    let rb := UpdateItem db b tb
    let ra := UpdateItem rb.1 a ta
    (ra.1, ra.2, rb.2)

end Storage

namespace Server

/-- Response of Server.UpdateItem: the message and NewVersion fields of
pb.UpdateItemResponse (NewVersion keeps its zero default on the conflict
path). -/
structure UpdateItemResponse where
  message : String
  newVersion : Nat
deriving DecidableEq, Repr

/-- Server.UpdateItem from internal/server: reads the item (GetItem), puts
the request's ciphertext — and tags when present — into it, and calls the
storage UpdateItem with the version GetItem returned; a version conflict
becomes a normal response carrying the conflict message, success a
response whose NewVersion is the read version plus 1.  Returns the
database after the call together with the response. -/
def UpdateItem (db : Storage.DB) (userID itemID : String)
    (encryptedData : List Nat) (metadata : Option (List (String × String)))
    (now : Nat) : Except Storage.StorageError (Storage.DB × UpdateItemResponse) :=
  match Storage.GetItem db userID itemID with
  | Except.error e => Except.error e
  | Except.ok item =>
    let item1 := { item with encryptedData := encryptedData }
    let item2 :=
      match metadata with
      | some m => { item1 with metadata := m }
      | none => item1
    let upd := Storage.UpdateItem db item2 now
    match upd.2 with
    | Except.ok _ =>
        Except.ok (upd.1, { message := "item updated successfully", newVersion := item.version + 1 })
    | Except.error Storage.StorageError.versionConflict =>
        Except.ok (upd.1,
          { message := "version conflict - item was modified by another client", newVersion := 0 })
    | Except.error e => Except.error e

/-- Response of Server.Sync: the items and SyncTimestamp fields of
pb.SyncResponse (the conflicts list is always nil in the source and is
omitted). -/
structure SyncResponse where
  items : List Storage.DataItem
  syncTimestamp : Nat
deriving DecidableEq, Repr

/-- One execution of Server.Sync among concurrent mutators: the database
snapshot the GetItemsModifiedAfter query reads, the server instant at
which that query starts, and the server instant at which the response is
built — the single time.Now() call in Server.Sync happens at response
construction, after the query has returned, so tQueryStart ≤ tRespond and
mutations may commit between the two instants. -/
structure SyncExec where
  dbAtQuery : Storage.DB
  tQueryStart : Nat
  tRespond : Nat

/-- Server.Sync from internal/server: queries the items modified after the
client's watermark and returns them with SyncTimestamp := time.Now()
taken when the response is built. -/
def Sync (e : SyncExec) (userID : String) (lastSyncTimestamp : Nat) : SyncResponse :=
  { items := Storage.GetItemsModifiedAfter e.dbAtQuery userID lastSyncTimestamp,
    syncTimestamp := e.tRespond }

/-- Modelled from the spec, for comparison with the code (refinement):
"new-watermark is the current server instant captured at the start of the
query". -/
def specSyncWatermark (e : SyncExec) : Nat := e.tQueryStart

end Server

/-- Demonstration row: a live credential item of owner u1. -/
def rowA : Storage.DataItem :=
  { id := "i1", userID := "u1", type := "credential", name := "GitHub",
    encryptedData := [1, 2], metadata := [("site", "github")],
    createdAt := 1, updatedAt := 2, version := 1, deleted := false }

/-- Demonstration row: a tombstoned item of the same owner. -/
def rowDead : Storage.DataItem :=
  { rowA with id := "i2", name := "Old", deleted := true, updatedAt := 3 }

/-- Update payload for rowA carrying expected version 1 (first device). -/
def updA : Storage.DataItem := { rowA with encryptedData := [7] }

/-- Update payload for rowA carrying expected version 1 (second device). -/
def updB : Storage.DataItem := { rowA with encryptedData := [8] }

/-- Demonstration row for the sync scenario, last updated at instant 5. -/
def rowSync : Storage.DataItem := { rowA with id := "s1", name := "S", updatedAt := 5 }

/-- The same row after a mutation that commits at instant 11, during the
sync query. -/
def rowSyncUpd : Storage.DataItem :=
  { rowSync with updatedAt := 11, version := 2, encryptedData := [9] }

/-- Demonstration sync execution: the query runs at instant 10 over the
pre-mutation snapshot; the response is built at instant 12, after the
mutation of instant 11 has committed. -/
def syncExecDemo : Server.SyncExec :=
  { dbAtQuery := [rowSync], tQueryStart := 10, tRespond := 12 }

/-- Demonstration row updated well after the demonstration sync response. -/
def rowLate : Storage.DataItem :=
  { rowA with id := "L", name := "Late", updatedAt := 20 }

instance : IsTotal Storage.DataItem Storage.byUpdatedAtAsc :=
  ⟨fun a b => Nat.le_total a.updatedAt b.updatedAt⟩

instance : IsTrans Storage.DataItem Storage.byUpdatedAtAsc :=
  ⟨fun _ _ _ => Nat.le_trans⟩

/-! ## Theorems -/

/-- Rows of a database with distinct ids are determined by their id. -/
theorem nodup_id_eq {db : Storage.DB} (h : Storage.idsNodup db)
    {r s : Storage.DataItem} (hr : r ∈ db) (hs : s ∈ db) (hid : r.id = s.id) : r = s :=
  List.inj_on_of_nodup_map h hr hs hid

/-- Rows of a database with distinct (owner, name) pairs are determined by
that pair. -/
theorem nodup_ownerName_eq {db : Storage.DB} (h : Storage.ownerNameNodup db)
    {r s : Storage.DataItem} (hr : r ∈ db) (hs : s ∈ db)
    (hu : r.userID = s.userID) (hn : r.name = s.name) : r = s :=
  List.inj_on_of_nodup_map h hr hs (by rw [hu, hn])

/-- find? returns the unique element satisfying the predicate. -/
theorem find?_eq_of_unique {α : Type} (p : α → Bool) (l : List α) (a : α)
    (ha : a ∈ l) (hpa : p a = true) (huniq : ∀ b ∈ l, p b = true → b = a) :
    l.find? p = some a := by
  induction l with
  | nil => cases ha
  | cons x xs ih =>
    by_cases hx : p x = true
    · have hxa : x = a := huniq x (List.mem_cons_self x xs) hx
      rw [List.find?_cons_of_pos _ hx, hxa]
    · have haxs : a ∈ xs := by
        rcases List.mem_cons.mp ha with h | h
        · exact absurd (h ▸ hpa) hx
        · exact h
      rw [List.find?_cons_of_neg _ hx]
      exact ih haxs fun b hb hpb => huniq b (List.mem_cons_of_mem x hb) hpb

/-- Every scanned row carries the empty tags map: the stored metadata goes
through jsonToMetadata, which discards it. -/
theorem readItem_metadata (r : Storage.DataItem) : (Storage.readItem r).metadata = [] := by
  unfold Storage.readItem Storage.metadataToJSON
  split <;> rfl

/-- C5: every item returned by a read operation (get-by-id, get-by-name,
list, list-changed-since) carries the empty tags/metadata map, whatever
tags were stored with it — jsonToMetadata discards its input, so stored
tags never round-trip back to the caller. -/
theorem c5_tags_never_round_trip (db : Storage.DB) (userID itemID nm dataType : String)
    (timestamp : Nat) :
    (∀ it, Storage.GetItem db userID itemID = Except.ok it → it.metadata = []) ∧
    (∀ it, Storage.GetItemByName db userID nm = Except.ok it → it.metadata = []) ∧
    (∀ it ∈ Storage.ListItems db userID dataType, it.metadata = []) ∧
    (∀ it ∈ Storage.GetItemsModifiedAfter db userID timestamp, it.metadata = []) := by
  refine ⟨?_, ?_, ?_, ?_⟩
  · intro it h
    unfold Storage.GetItem at h
    cases hf : db.find? (fun r => decide (r.id = itemID ∧ r.userID = userID ∧ r.deleted = false)) with
    | none => rw [hf] at h; exact Except.noConfusion h
    | some r =>
      rw [hf] at h
      injection h with h2
      rw [← h2]
      exact readItem_metadata r
  · intro it h
    unfold Storage.GetItemByName at h
    cases hf : db.find? (fun r => decide (r.userID = userID ∧ r.name = nm ∧ r.deleted = false)) with
    | none => rw [hf] at h; exact Except.noConfusion h
    | some r =>
      rw [hf] at h
      injection h with h2
      rw [← h2]
      exact readItem_metadata r
  · intro it hit
    simp only [Storage.ListItems] at hit
    rcases List.mem_map.mp hit with ⟨r, _, rfl⟩
    exact readItem_metadata r
  · intro it hit
    simp only [Storage.GetItemsModifiedAfter] at hit
    rcases List.mem_map.mp hit with ⟨r, _, rfl⟩
    exact readItem_metadata r

/-- Concrete check of C5: rowA stores a non-empty tags map, yet get-by-id
returns it with the empty map. -/
theorem c5_tags_witness : (Storage.readItem rowA).metadata = [] :=
  (c5_tags_never_round_trip [rowA] "u1" "i1" "GitHub" "" 0).1 (Storage.readItem rowA) rfl

/-- C4: get-by-id fails with the same not-found error in all three cases —
the item does not exist, the item is tombstoned, or the item belongs to a
different owner — and get-by-name has the same contract keyed by name. -/
theorem c4_uniform_not_found (db : Storage.DB) (userID itemID nm : String)
    (hids : Storage.idsNodup db) (hnames : Storage.ownerNameNodup db)
    (hI : (∀ r ∈ db, r.id ≠ itemID) ∨
          (∃ r ∈ db, r.id = itemID ∧ r.deleted = true) ∨
          (∃ r ∈ db, r.id = itemID ∧ r.userID ≠ userID))
    (hN : (∀ r ∈ db, r.name ≠ nm) ∨
          (∃ r ∈ db, r.userID = userID ∧ r.name = nm ∧ r.deleted = true) ∨
          (∀ r ∈ db, r.name = nm → r.userID ≠ userID)) :
    Storage.GetItem db userID itemID = Except.error Storage.StorageError.itemNotFound ∧
    Storage.GetItemByName db userID nm = Except.error Storage.StorageError.itemNotFound := by
  constructor
  · unfold Storage.GetItem
    have hnone : db.find? (fun r => decide (r.id = itemID ∧ r.userID = userID ∧ r.deleted = false)) = none := by
      rw [List.find?_eq_none]
      intro r hr
      simp only [decide_eq_true_eq, not_and]
      intro hid huid
      rcases hI with h1 | ⟨r0, hr0, hid0, hdel0⟩ | ⟨r0, hr0, hid0, huid0⟩
      · exact absurd hid (h1 r hr)
      · have heq : r = r0 := nodup_id_eq hids hr hr0 (by rw [hid, hid0])
        rw [heq, hdel0]
        simp
      · have heq : r = r0 := nodup_id_eq hids hr hr0 (by rw [hid, hid0])
        exact absurd (heq ▸ huid) huid0
    rw [hnone]
  · unfold Storage.GetItemByName
    have hnone : db.find? (fun r => decide (r.userID = userID ∧ r.name = nm ∧ r.deleted = false)) = none := by
      rw [List.find?_eq_none]
      intro r hr
      simp only [decide_eq_true_eq, not_and]
      intro huid hname
      rcases hN with h1 | ⟨r0, hr0, huid0, hname0, hdel0⟩ | h3
      · exact absurd hname (h1 r hr)
      · have heq : r = r0 :=
          nodup_ownerName_eq hnames hr hr0 (by rw [huid, huid0]) (by rw [hname, hname0])
        rw [heq, hdel0]
        simp
      · exact absurd huid (h3 r hr hname)
    rw [hnone]

/-- Concrete check of C4: the tombstoned rowDead is reported not-found,
both by id and by name. -/
theorem c4_uniform_not_found_witness :
    Storage.GetItem [rowA, rowDead] "u1" "i2" = Except.error Storage.StorageError.itemNotFound ∧
    Storage.GetItemByName [rowA, rowDead] "u1" "Old" = Except.error Storage.StorageError.itemNotFound :=
  c4_uniform_not_found [rowA, rowDead] "u1" "i2" "Old"
    (by unfold Storage.idsNodup; decide) (by unfold Storage.ownerNameNodup; decide)
    (Or.inr (Or.inl ⟨rowDead, by decide, rfl, rfl⟩))
    (Or.inr (Or.inl ⟨rowDead, by decide, rfl, rfl, rfl⟩))

/-- Membership in the changed-since query result: exactly the scans of the
owner's rows whose updated-at is strictly greater than the timestamp,
tombstoned rows included. -/
theorem mem_getItemsModifiedAfter (db : Storage.DB) (userID : String) (timestamp : Nat)
    (it : Storage.DataItem) :
    it ∈ Storage.GetItemsModifiedAfter db userID timestamp ↔
      ∃ r ∈ db, r.userID = userID ∧ timestamp < r.updatedAt ∧ it = Storage.readItem r := by
  unfold Storage.GetItemsModifiedAfter
  rw [List.mem_map]
  constructor
  · rintro ⟨r, hr, rfl⟩
    have hr2 := (List.perm_insertionSort Storage.byUpdatedAtAsc
      (db.filter (fun r => decide (r.userID = userID ∧ timestamp < r.updatedAt)))).mem_iff.mp hr
    rcases List.mem_filter.mp hr2 with ⟨hmem, hp⟩
    simp only [decide_eq_true_eq] at hp
    exact ⟨r, hmem, hp.1, hp.2, rfl⟩
  · rintro ⟨r, hmem, h1, h2, rfl⟩
    refine ⟨r, ?_, rfl⟩
    apply (List.perm_insertionSort Storage.byUpdatedAtAsc
      (db.filter (fun r => decide (r.userID = userID ∧ timestamp < r.updatedAt)))).mem_iff.mpr
    exact List.mem_filter.mpr ⟨hmem, by simp [h1, h2]⟩

/-- C6: list-changed-since returns exactly the items of the owner
(tombstoned or not) whose updated-at is strictly greater than the given
timestamp, ordered ascending by updated-at. -/
theorem c6_list_changed_since (db : Storage.DB) (userID : String) (timestamp : Nat) :
    (∀ it, it ∈ Storage.GetItemsModifiedAfter db userID timestamp ↔
      ∃ r ∈ db, r.userID = userID ∧ timestamp < r.updatedAt ∧ it = Storage.readItem r) ∧
    List.Sorted Storage.byUpdatedAtAsc (Storage.GetItemsModifiedAfter db userID timestamp) := by
  refine ⟨mem_getItemsModifiedAfter db userID timestamp, ?_⟩
  unfold Storage.GetItemsModifiedAfter
  exact (List.sorted_insertionSort Storage.byUpdatedAtAsc
    (db.filter (fun r => decide (r.userID = userID ∧ timestamp < r.updatedAt)))).map
    Storage.readItem (fun _ _ h => h)

/-- Concrete check of C6: the tombstoned rowDead (updated at 3) is in the
changed-since-2 batch of its owner. -/
theorem c6_changed_since_witness :
    Storage.readItem rowDead ∈ Storage.GetItemsModifiedAfter [rowA, rowDead] "u1" 2 :=
  ((c6_list_changed_since [rowA, rowDead] "u1" 2).1 (Storage.readItem rowDead)).mpr
    ⟨rowDead, by decide, rfl, by decide, rfl⟩

/-- C7 counterexample: in the demonstration execution the watermark the
code returns is the instant taken after the query (12), not the instant at
the start of the query (10); the item mutated during the query at instant
11 — at or before the returned watermark — is in neither this batch nor
the next sync's batch, so its change is silently skipped, the very
behavior the claim says the start-of-query watermark prevents. -/
theorem c7_watermark_counterexample :
    (Server.Sync syncExecDemo "u1" 0).syncTimestamp ≠ Server.specSyncWatermark syncExecDemo ∧
    (Server.Sync syncExecDemo "u1" 0).items = [Storage.readItem rowSync] ∧
    rowSyncUpd.updatedAt ≤ (Server.Sync syncExecDemo "u1" 0).syncTimestamp ∧
    Storage.readItem rowSyncUpd ∉ (Server.Sync syncExecDemo "u1" 0).items ∧
    Storage.GetItemsModifiedAfter [rowSyncUpd] "u1"
      (Server.Sync syncExecDemo "u1" 0).syncTimestamp = [] := by
  refine ⟨by decide, rfl, by decide, by decide, rfl⟩

/-- C7 as amended: the new watermark returned by sync is the server
instant captured after the changed-items query completes (when the
response is built), and only an item whose updated-at is strictly greater
than that instant is guaranteed to appear in the next sync's batch — an
item mutated concurrently with the query with updated-at at-or-before the
new watermark can be skipped. -/
theorem c7_watermark_after_query (e : Server.SyncExec) (userID : String)
    (lastSyncTimestamp : Nat) (db2 : Storage.DB) :
    (Server.Sync e userID lastSyncTimestamp).syncTimestamp = e.tRespond ∧
    (∀ r ∈ db2, r.userID = userID →
      (Server.Sync e userID lastSyncTimestamp).syncTimestamp < r.updatedAt →
      Storage.readItem r ∈ Storage.GetItemsModifiedAfter db2 userID
        (Server.Sync e userID lastSyncTimestamp).syncTimestamp) := by
  refine ⟨rfl, ?_⟩
  intro r hr huid hlt
  exact (mem_getItemsModifiedAfter db2 userID _ (Storage.readItem r)).mpr ⟨r, hr, huid, hlt, rfl⟩

/-- Concrete check of the amended C7: an item updated strictly after the
returned watermark is delivered by the next sync. -/
theorem c7_watermark_witness :
    Storage.readItem rowLate ∈ Storage.GetItemsModifiedAfter [rowLate] "u1"
      (Server.Sync syncExecDemo "u1" 0).syncTimestamp :=
  (c7_watermark_after_query syncExecDemo "u1" 0 [rowLate]).2 rowLate (by decide) rfl (by decide)

/-- A row matching the given id, owner, expected version and liveness
satisfies the UPDATE predicate. -/
theorem updMatches_of {item stored : Storage.DataItem} (hid : stored.id = item.id)
    (huser : stored.userID = item.userID) (hv : stored.version = item.version)
    (hlive : stored.deleted = false) : Storage.updMatches item stored = true := by
  simp [Storage.updMatches, hid, huser, hv, hlive]

/-- Decomposition of the UPDATE predicate. -/
theorem updMatches_iff {item r : Storage.DataItem} (h : Storage.updMatches item r = true) :
    r.id = item.id ∧ r.userID = item.userID ∧ r.version = item.version ∧ r.deleted = false := by
  simpa [Storage.updMatches] using h

/-- UpdateItem succeeds exactly when the conditional UPDATE matched a row. -/
theorem updateItem_snd_ok_iff (db : Storage.DB) (item : Storage.DataItem) (now : Nat) :
    (Storage.UpdateItem db item now).2 = Except.ok ()
      ↔ db.countP (Storage.updMatches item) ≠ 0 := by
  unfold Storage.UpdateItem
  split <;> simp_all

/-- The database after UpdateItem: the SET clause applied to every matched
row. -/
theorem updateItem_fst (db : Storage.DB) (item : Storage.DataItem) (now : Nat) :
    (Storage.UpdateItem db item now).1
      = db.map (fun r => if Storage.updMatches item r then Storage.applyUpdate item now r else r) := by
  unfold Storage.UpdateItem
  split <;> rfl

/-- When no row matches, UpdateItem reports the version conflict and
leaves the database unchanged. -/
theorem updateItem_conflict_of_no_match (db : Storage.DB) (item : Storage.DataItem) (now : Nat)
    (h : db.countP (Storage.updMatches item) = 0) :
    (Storage.UpdateItem db item now).2 = Except.error Storage.StorageError.versionConflict ∧
    (Storage.UpdateItem db item now).1 = db := by
  constructor
  · unfold Storage.UpdateItem
    rw [if_pos h]
  · rw [updateItem_fst]
    have h2 : db.map (fun r => if Storage.updMatches item r then Storage.applyUpdate item now r else r)
        = db.map id :=
      List.map_congr_left fun r hr => by rw [if_neg (List.countP_eq_zero.mp h r hr)]; rfl
    rw [h2, List.map_id]

/-- GetItem finds a live row of the given owner (under the primary-key
invariant) and returns its scan. -/
theorem getItem_found (db : Storage.DB) (stored : Storage.DataItem)
    (hids : Storage.idsNodup db) (hmem : stored ∈ db) (hlive : stored.deleted = false) :
    Storage.GetItem db stored.userID stored.id = Except.ok (Storage.readItem stored) := by
  unfold Storage.GetItem
  rw [find?_eq_of_unique
    (fun r => decide (r.id = stored.id ∧ r.userID = stored.userID ∧ r.deleted = false))
    db stored hmem (by simp [hlive])
    (fun b hb hpb => by
      simp only [decide_eq_true_eq] at hpb
      exact nodup_id_eq hids hb hmem hpb.1)]

/-- C2: an update carrying an expected version succeeds if and only if the
stored row's version equals it and the row is not tombstoned; on success
the one conditional UPDATE rewrites exactly that row, setting version to
expected + 1 and refreshing updated-at, and the server responds with the
new version; on failure the version-conflict error is reported and the
database is unchanged. -/
theorem c2_update_version_check (db : Storage.DB) (item stored : Storage.DataItem) (now : Nat)
    (hids : Storage.idsNodup db) (hmem : stored ∈ db)
    (hid : stored.id = item.id) (huser : stored.userID = item.userID) :
    ((Storage.UpdateItem db item now).2 = Except.ok ()
        ↔ stored.version = item.version ∧ stored.deleted = false) ∧
    (stored.version = item.version ∧ stored.deleted = false →
      (Storage.UpdateItem db item now).1
          = db.map (fun r => if r = stored then Storage.applyUpdate item now r else r) ∧
      Storage.applyUpdate item now stored ∈ (Storage.UpdateItem db item now).1 ∧
      (Storage.applyUpdate item now stored).version = item.version + 1 ∧
      (Storage.applyUpdate item now stored).updatedAt = now) ∧
    (¬(stored.version = item.version ∧ stored.deleted = false) →
      (Storage.UpdateItem db item now).2 = Except.error Storage.StorageError.versionConflict ∧
      (Storage.UpdateItem db item now).1 = db) ∧
    (∀ data md, stored.deleted = false →
      ∃ dbAfter, Server.UpdateItem db stored.userID stored.id data md now
        = Except.ok (dbAfter,
            { message := "item updated successfully", newVersion := stored.version + 1 })) := by
  have huniq : ∀ r ∈ db, Storage.updMatches item r = true → r = stored := fun r hr h =>
    nodup_id_eq hids hr hmem (by rw [(updMatches_iff h).1, ← hid])
  refine ⟨?_, ?_, ?_, ?_⟩
  · constructor
    · intro hok
      have hne := (updateItem_snd_ok_iff db item now).mp hok
      rcases List.countP_pos_iff.mp (Nat.pos_of_ne_zero hne) with ⟨r, hr, hpr⟩
      have heq := huniq r hr hpr
      rw [heq] at hpr
      rcases updMatches_iff hpr with ⟨_, _, hv, hd⟩
      exact ⟨hv, hd⟩
    · rintro ⟨hv, hlive⟩
      exact (updateItem_snd_ok_iff db item now).mpr
        (Nat.pos_iff_ne_zero.mp (List.countP_pos_iff.mpr ⟨stored, hmem, updMatches_of hid huser hv hlive⟩))
  · rintro ⟨hv, hlive⟩
    have hm := updMatches_of hid huser hv hlive
    refine ⟨?_, ?_, ?_, ?_⟩
    · rw [updateItem_fst]
      apply List.map_congr_left
      intro r hr
      by_cases hrs : r = stored
      · rw [hrs, if_pos hm, if_pos rfl]
      · have hm2 : ¬ Storage.updMatches item r = true := fun hcon => hrs (huniq r hr hcon)
        rw [if_neg hm2, if_neg hrs]
    · rw [updateItem_fst]
      exact List.mem_map.mpr ⟨stored, hmem, by rw [if_pos hm]⟩
    · simp [Storage.applyUpdate, hv]
    · simp [Storage.applyUpdate]
  · intro hnot
    apply updateItem_conflict_of_no_match
    apply List.countP_eq_zero.mpr
    intro r hr hpr
    have heq := huniq r hr hpr
    rw [heq] at hpr
    rcases updMatches_iff hpr with ⟨_, _, hv, hd⟩
    exact hnot ⟨hv, hd⟩
  · intro data md hlive
    have hget := getItem_found db stored hids hmem hlive
    unfold Server.UpdateItem
    rw [hget]
    cases md with
    | none =>
      have hok : (Storage.UpdateItem db
          { Storage.readItem stored with encryptedData := data } now).2 = Except.ok () :=
        (updateItem_snd_ok_iff db _ now).mpr
          (Nat.pos_iff_ne_zero.mp (List.countP_pos_iff.mpr
            ⟨stored, hmem, updMatches_of rfl rfl rfl hlive⟩))
      dsimp only at hok ⊢
      rw [hok]
      exact ⟨_, rfl⟩
    | some m =>
      have hok : (Storage.UpdateItem db
          { Storage.readItem stored with encryptedData := data, metadata := m } now).2
          = Except.ok () :=
        (updateItem_snd_ok_iff db _ now).mpr
          (Nat.pos_iff_ne_zero.mp (List.countP_pos_iff.mpr
            ⟨stored, hmem, updMatches_of rfl rfl rfl hlive⟩))
      dsimp only at hok ⊢
      rw [hok]
      exact ⟨_, rfl⟩

/-- Concrete check of C2: an update of rowA carrying expected version 1
succeeds. -/
theorem c2_update_witness : (Storage.UpdateItem [rowA] updA 7).2 = Except.ok () :=
  ((c2_update_version_check [rowA] updA rowA 7 (by unfold Storage.idsNodup; decide)
    (by decide) rfl rfl).1).mpr ⟨rfl, rfl⟩

/-- The first of two conditional UPDATEs presenting the stored version
wins; the second then matches no row, fails with the version conflict and
leaves the database unchanged, which holds the bumped row. -/
theorem updatePair_first_wins (db : Storage.DB) (x y stored : Storage.DataItem) (tx ty : Nat)
    (hids : Storage.idsNodup db) (hmem : stored ∈ db)
    (hxid : stored.id = x.id) (hxuser : stored.userID = x.userID)
    (hyid : stored.id = y.id) (hyuser : stored.userID = y.userID)
    (hxv : stored.version = x.version) (hyv : stored.version = y.version)
    (hlive : stored.deleted = false) :
    (Storage.UpdateItem db x tx).2 = Except.ok () ∧
    (Storage.UpdateItem (Storage.UpdateItem db x tx).1 y ty).2
      = Except.error Storage.StorageError.versionConflict ∧
    (Storage.UpdateItem (Storage.UpdateItem db x tx).1 y ty).1 = (Storage.UpdateItem db x tx).1 ∧
    Storage.applyUpdate x tx stored ∈ (Storage.UpdateItem (Storage.UpdateItem db x tx).1 y ty).1 ∧
    (Storage.applyUpdate x tx stored).id = stored.id ∧
    (Storage.applyUpdate x tx stored).version = stored.version + 1 := by
  have hmx := updMatches_of hxid hxuser hxv hlive
  have hok : (Storage.UpdateItem db x tx).2 = Except.ok () :=
    (updateItem_snd_ok_iff db x tx).mpr
      (Nat.pos_iff_ne_zero.mp (List.countP_pos_iff.mpr ⟨stored, hmem, hmx⟩))
  have hnomatch : ∀ r ∈ (Storage.UpdateItem db x tx).1, ¬ Storage.updMatches y r = true := by
    rw [updateItem_fst]
    intro r' hr'
    rcases List.mem_map.mp hr' with ⟨r, hr, rfl⟩
    by_cases hm : Storage.updMatches x r = true
    · have heq : r = stored := nodup_id_eq hids hr hmem (by rw [(updMatches_iff hm).1, ← hxid])
      rw [if_pos hm]
      intro hcon
      have hv := (updMatches_iff hcon).2.2.1
      simp only [Storage.applyUpdate] at hv
      rw [heq] at hv
      rw [← hyv] at hv
      omega
    · rw [if_neg hm]
      intro hcon
      have heq : r = stored := nodup_id_eq hids hr hmem (by rw [(updMatches_iff hcon).1, ← hyid])
      rw [heq] at hm
      exact hm hmx
  have hcount0 : (Storage.UpdateItem db x tx).1.countP (Storage.updMatches y) = 0 :=
    List.countP_eq_zero.mpr hnomatch
  have hconf := updateItem_conflict_of_no_match (Storage.UpdateItem db x tx).1 y ty hcount0
  refine ⟨hok, hconf.1, hconf.2, ?_, rfl, rfl⟩
  rw [hconf.2, updateItem_fst]
  exact List.mem_map.mpr ⟨stored, hmem, by rw [if_pos hmx]⟩

/-- C10: when two concurrent updates both present the stored version N of
the same item, then under either interleaving of the two atomic
conditional UPDATEs exactly one call succeeds and the other fails with a
version-conflict error, and the item ends at version N + 1. -/
theorem c10_concurrent_updates_one_wins (db : Storage.DB) (a b stored : Storage.DataItem)
    (ta tb : Nat) (aFirst : Bool)
    (hids : Storage.idsNodup db) (hmem : stored ∈ db)
    (haid : stored.id = a.id) (hauser : stored.userID = a.userID)
    (hbid : stored.id = b.id) (hbuser : stored.userID = b.userID)
    (hav : stored.version = a.version) (hbv : stored.version = b.version)
    (hlive : stored.deleted = false) :
    ((Storage.runTwoUpdates db a b ta tb aFirst).2.1 = Except.ok () ∧
        (Storage.runTwoUpdates db a b ta tb aFirst).2.2
          = Except.error Storage.StorageError.versionConflict ∨
      (Storage.runTwoUpdates db a b ta tb aFirst).2.1
          = Except.error Storage.StorageError.versionConflict ∧
        (Storage.runTwoUpdates db a b ta tb aFirst).2.2 = Except.ok ()) ∧
    ∃ r ∈ (Storage.runTwoUpdates db a b ta tb aFirst).1,
      r.id = stored.id ∧ r.version = stored.version + 1 := by
  cases aFirst with
  | true =>
    have h := updatePair_first_wins db a b stored ta tb hids hmem
      haid hauser hbid hbuser hav hbv hlive
    exact ⟨Or.inl ⟨h.1, h.2.1⟩,
      Storage.applyUpdate a ta stored, h.2.2.2.1, h.2.2.2.2.1, h.2.2.2.2.2⟩
  | false =>
    have h := updatePair_first_wins db b a stored tb ta hids hmem
      hbid hbuser haid hauser hbv hav hlive
    exact ⟨Or.inr ⟨h.2.1, h.1⟩,
      Storage.applyUpdate b tb stored, h.2.2.2.1, h.2.2.2.2.1, h.2.2.2.2.2⟩

/-- Concrete check of C10: two updates of rowA both presenting version 1,
first one first — the first succeeds, the second conflicts, and the row
ends at version 2. -/
theorem c10_concurrent_updates_witness :
    ((Storage.runTwoUpdates [rowA] updA updB 5 6 true).2.1 = Except.ok () ∧
        (Storage.runTwoUpdates [rowA] updA updB 5 6 true).2.2
          = Except.error Storage.StorageError.versionConflict ∨
      (Storage.runTwoUpdates [rowA] updA updB 5 6 true).2.1
          = Except.error Storage.StorageError.versionConflict ∧
        (Storage.runTwoUpdates [rowA] updA updB 5 6 true).2.2 = Except.ok ()) ∧
    ∃ r ∈ (Storage.runTwoUpdates [rowA] updA updB 5 6 true).1,
      r.id = rowA.id ∧ r.version = rowA.version + 1 :=
  c10_concurrent_updates_one_wins [rowA] updA updB rowA 5 6 true
    (by unfold Storage.idsNodup; decide) (by decide) rfl rfl rfl rfl rfl rfl rfl

/-- C3 counterexample: the only "Old" item of owner u1 is tombstoned, yet
creating a new item with that name for the same owner still fails with the
uniqueness violation — UNIQUE(user_id, name) covers tombstoned rows, so
the claim's "allowed again once the original is tombstoned" is false on
the code. -/
theorem c3_tombstoned_name_reuse_counterexample :
    rowDead.deleted = true ∧
    (Storage.CreateItem [rowDead] { rowA with id := "i9", name := "Old" } "i9" 9).2
      = Except.error Storage.StorageError.uniqueViolation :=
  ⟨rfl, rfl⟩

/-- C3 as amended: create() with a name colliding with an existing item of
the same owner — live or tombstoned — fails with the store's
unique-constraint violation and inserts nothing; the same name is allowed
for a different owner (any non-colliding insert succeeds with version 1).
Name reuse after tombstoning is not allowed, since UNIQUE(user_id, name)
covers tombstoned rows. -/
theorem c3_create_name_uniqueness (db : Storage.DB) (item : Storage.DataItem)
    (newId : String) (now : Nat) :
    ((∃ r ∈ db, r.userID = item.userID ∧ r.name = item.name) →
      (Storage.CreateItem db item newId now).2 = Except.error Storage.StorageError.uniqueViolation ∧
      (Storage.CreateItem db item newId now).1 = db) ∧
    ((∀ r ∈ db, r.id ≠ (Storage.newRow item newId now).id) →
      (∀ r ∈ db, ¬(r.userID = item.userID ∧ r.name = item.name)) →
      (Storage.CreateItem db item newId now).2 = Except.ok (Storage.newRow item newId now) ∧
      (Storage.CreateItem db item newId now).1 = db ++ [Storage.newRow item newId now] ∧
      (Storage.newRow item newId now).userID = item.userID ∧
      (Storage.newRow item newId now).name = item.name ∧
      (Storage.newRow item newId now).version = 1 ∧
      (Storage.newRow item newId now).createdAt = now ∧
      (Storage.newRow item newId now).updatedAt = now) := by
  constructor
  · rintro ⟨r, hr, hu, hn⟩
    have hc : Storage.insertConflict db (Storage.newRow item newId now) = true :=
      List.any_eq_true.mpr ⟨r, hr, by simp [Storage.newRow, hu, hn]⟩
    unfold Storage.CreateItem
    rw [if_pos hc]
    exact ⟨rfl, rfl⟩
  · intro hfresh hnocollide
    have hc : ¬ Storage.insertConflict db (Storage.newRow item newId now) = true := by
      intro hcon
      rcases List.any_eq_true.mp hcon with ⟨r, hr, hpr⟩
      simp only [Bool.or_eq_true, decide_eq_true_eq] at hpr
      rcases hpr with hpid | hpname
      · exact hfresh r hr hpid
      · exact hnocollide r hr (by simpa [Storage.newRow] using hpname)
    unfold Storage.CreateItem
    rw [if_neg hc]
    exact ⟨rfl, rfl, rfl, rfl, rfl, rfl, rfl⟩

/-- Concrete check of the amended C3: a live name collision for the same
owner is rejected. -/
theorem c3_create_name_uniqueness_witness :
    (Storage.CreateItem [rowA] { rowA with id := "i9" } "i9" 9).2
      = Except.error Storage.StorageError.uniqueViolation :=
  ((c3_create_name_uniqueness [rowA] { rowA with id := "i9" } "i9" 9).1
    ⟨rowA, by decide, rfl, rfl⟩).1

/-- Length of a generated salt. -/
theorem generateSalt_length (rand : Nat → Nat) :
    (Crypto.GenerateSalt rand).length = Crypto.SaltSize := by
  simp [Crypto.GenerateSalt]

/-- Keys derived by the KDF always have a valid AES key size. -/
theorem validKeySize_deriveKey (K : Crypto.KDF) (password : String) (salt : List Nat) :
    Crypto.validKeySize (Crypto.DeriveKey K password salt) = true := by
  simp [Crypto.validKeySize, Crypto.DeriveKey, K.derive_length, Crypto.KeySize]

/-- Decrypting a well-formed envelope blob recovers the plaintext. -/
theorem decryptWithPassword_layout (G : Crypto.GCM) (K : Crypto.KDF)
    (salt nonce plaintext : List Nat) (password : String)
    (hs : salt.length = Crypto.SaltSize) (hn : nonce.length = Crypto.NonceSize) :
    Crypto.DecryptWithPassword G K
      (salt ++ (nonce ++ G.gcmSeal (Crypto.DeriveKey K password salt) nonce plaintext)) password
      = Except.ok plaintext := by
  have hseal := G.gcmSeal_length (Crypto.DeriveKey K password salt) nonce plaintext
  have hlen : ¬ (salt ++ (nonce ++ G.gcmSeal (Crypto.DeriveKey K password salt) nonce plaintext)).length
      < Crypto.SaltSize + Crypto.NonceSize := by
    simp only [List.length_append, hs, hn, hseal, Crypto.SaltSize, Crypto.NonceSize, Crypto.TagSize]
    omega
  have hlen2 : ¬ (nonce ++ G.gcmSeal (Crypto.DeriveKey K password salt) nonce plaintext).length
      < Crypto.NonceSize := by
    simp only [List.length_append, hn, hseal, Crypto.NonceSize, Crypto.TagSize]
    omega
  unfold Crypto.DecryptWithPassword
  rw [if_neg hlen, List.take_left' hs, List.drop_left' hs]
  unfold Crypto.Decrypt
  rw [if_pos (validKeySize_deriveKey K password salt), if_neg hlen2,
    List.take_left' hn, List.drop_left' hn, G.gcmOpen_gcmSeal]

/-- C1: for every plaintext P and secret S, decrypting with the same secret
the blob produced by encrypt-with-secret recovers P exactly:
DecryptWithPassword(EncryptWithPassword(P, S), S) = P — for every GCM/KDF
primitive pair and every randomness stream. -/
theorem c1_encrypt_decrypt_with_secret_roundtrip (G : Crypto.GCM) (K : Crypto.KDF)
    (rand : Nat → Nat) (plaintext : List Nat) (password : String) :
    ∃ blob, Crypto.EncryptWithPassword G K rand plaintext password = Except.ok blob ∧
      Crypto.DecryptWithPassword G K blob password = Except.ok plaintext := by
  refine ⟨_, ?_, decryptWithPassword_layout G K (Crypto.GenerateSalt rand)
    ((List.range Crypto.NonceSize).map fun i => rand (Crypto.SaltSize + i))
    plaintext password (generateSalt_length rand) (by simp)⟩
  simp [Crypto.EncryptWithPassword, Crypto.Encrypt, validKeySize_deriveKey, Except.map]

/-- Concrete check of C1 at the demonstration primitives. -/
theorem c1_roundtrip_witness :
    ∃ blob, Crypto.EncryptWithPassword Crypto.demoGCM Crypto.demoKDF (fun i => i) [1, 2, 3] "pw"
        = Except.ok blob ∧
      Crypto.DecryptWithPassword Crypto.demoGCM Crypto.demoKDF blob "pw" = Except.ok [1, 2, 3] :=
  c1_encrypt_decrypt_with_secret_roundtrip Crypto.demoGCM Crypto.demoKDF (fun i => i) [1, 2, 3] "pw"

/-- C8: the blob produced by encrypt-with-secret has the layout
salt(32 bytes) || nonce(12 bytes) || authenticated ciphertext whose length
is the plaintext length plus the trailing 16-byte tag; the total length is
plaintext length + 32 + 12 + 16 = plaintext length + 60. -/
theorem c8_envelope_blob_wire_format (G : Crypto.GCM) (K : Crypto.KDF)
    (rand : Nat → Nat) (plaintext : List Nat) (password : String) :
    ∃ salt nonce ct,
      Crypto.EncryptWithPassword G K rand plaintext password = Except.ok (salt ++ (nonce ++ ct)) ∧
      salt.length = 32 ∧ nonce.length = 12 ∧ ct.length = plaintext.length + 16 ∧
      (salt ++ (nonce ++ ct)).length = plaintext.length + 60 := by
  refine ⟨Crypto.GenerateSalt rand,
    (List.range Crypto.NonceSize).map fun i => rand (Crypto.SaltSize + i),
    G.gcmSeal (Crypto.DeriveKey K password (Crypto.GenerateSalt rand))
      ((List.range Crypto.NonceSize).map fun i => rand (Crypto.SaltSize + i)) plaintext,
    ?_, ?_, ?_, ?_, ?_⟩
  · simp [Crypto.EncryptWithPassword, Crypto.Encrypt, validKeySize_deriveKey, Except.map]
  · simpa [Crypto.SaltSize] using generateSalt_length rand
  · simp [Crypto.NonceSize]
  · simpa [Crypto.TagSize] using G.gcmSeal_length
      (Crypto.DeriveKey K password (Crypto.GenerateSalt rand))
      ((List.range Crypto.NonceSize).map fun i => rand (Crypto.SaltSize + i)) plaintext
  · simp only [List.length_append]
    rw [show (Crypto.GenerateSalt rand).length = 32 from generateSalt_length rand]
    rw [show ((List.range Crypto.NonceSize).map fun i => rand (Crypto.SaltSize + i)).length = 12
      by simp [Crypto.NonceSize]]
    rw [show (G.gcmSeal (Crypto.DeriveKey K password (Crypto.GenerateSalt rand))
        ((List.range Crypto.NonceSize).map fun i => rand (Crypto.SaltSize + i)) plaintext).length
      = plaintext.length + 16 from G.gcmSeal_length _ _ _]
    omega

/-- Concrete check of C8 at the demonstration primitives. -/
theorem c8_wire_format_witness :
    ∃ salt nonce ct,
      Crypto.EncryptWithPassword Crypto.demoGCM Crypto.demoKDF (fun i => i) [5] "pw"
        = Except.ok (salt ++ (nonce ++ ct)) ∧
      salt.length = 32 ∧ nonce.length = 12 ∧ ct.length = 17 ∧
      (salt ++ (nonce ++ ct)).length = 61 :=
  c8_envelope_blob_wire_format Crypto.demoGCM Crypto.demoKDF (fun i => i) [5] "pw"

/-- C9 counterexample: on an input shorter than the nonce, Decrypt fails
with the malformed-input error ErrInvalidCiphertext, which is distinct
from the single authentication error ErrDecryptionFailed the claim
requires for all failure cases. -/
theorem c9_short_input_distinct_error_counterexample :
    Crypto.Decrypt Crypto.demoGCM [0, 0, 0, 0, 0] (List.replicate 32 0)
      = Except.error Crypto.CryptoError.invalidCiphertext ∧
    Crypto.CryptoError.invalidCiphertext ≠ Crypto.CryptoError.decryptionFailed :=
  ⟨rfl, by decide⟩

/-- C9 as amended: Decrypt fails with the distinct malformed-input error
(not the authentication error) when the input is shorter than the 12-byte
nonce, and with the authentication error when the integrity tag does not
verify; DecryptWithPassword fails with the malformed-input error exactly
when the blob is shorter than 32 + 12 = 44 bytes — and beyond that length
its only possible failure is the authentication error: every error it
returns on a blob of at least 44 bytes is ErrDecryptionFailed. -/
theorem c9_decrypt_error_taxonomy (G : Crypto.GCM) (K : Crypto.KDF)
    (key ct blob : List Nat) (password : String) :
    (Crypto.validKeySize key = true → ct.length < Crypto.NonceSize →
      Crypto.Decrypt G ct key = Except.error Crypto.CryptoError.invalidCiphertext) ∧
    (Crypto.validKeySize key = true → Crypto.NonceSize ≤ ct.length →
      G.gcmOpen key (ct.take Crypto.NonceSize) (ct.drop Crypto.NonceSize) = none →
      Crypto.Decrypt G ct key = Except.error Crypto.CryptoError.decryptionFailed) ∧
    (Crypto.DecryptWithPassword G K blob password
        = Except.error Crypto.CryptoError.invalidCiphertext
      ↔ blob.length < Crypto.SaltSize + Crypto.NonceSize) ∧
    (¬ blob.length < Crypto.SaltSize + Crypto.NonceSize →
      ∀ e, Crypto.DecryptWithPassword G K blob password = Except.error e →
        e = Crypto.CryptoError.decryptionFailed) := by
  have honly : ¬ blob.length < Crypto.SaltSize + Crypto.NonceSize →
      ∀ e, Crypto.DecryptWithPassword G K blob password = Except.error e →
        e = Crypto.CryptoError.decryptionFailed := by
    intro hge e h
    have hdroplen : ¬ (blob.drop Crypto.SaltSize).length < Crypto.NonceSize := by
      simp only [List.length_drop, Crypto.SaltSize, Crypto.NonceSize] at hge ⊢
      omega
    rw [Crypto.DecryptWithPassword, if_neg hge] at h
    rw [Crypto.Decrypt,
      if_pos (validKeySize_deriveKey K password (blob.take Crypto.SaltSize)),
      if_neg hdroplen] at h
    cases hopen : G.gcmOpen (Crypto.DeriveKey K password (blob.take Crypto.SaltSize))
        ((blob.drop Crypto.SaltSize).take Crypto.NonceSize)
        ((blob.drop Crypto.SaltSize).drop Crypto.NonceSize) with
    | none => rw [hopen] at h; exact (Except.error.inj h).symm
    | some p => rw [hopen] at h; exact Except.noConfusion h
  refine ⟨?_, ?_, ⟨?_, ?_⟩, honly⟩
  · intro hk hlt
    unfold Crypto.Decrypt
    rw [if_pos hk, if_pos hlt]
  · intro hk hge hnone
    unfold Crypto.Decrypt
    rw [if_pos hk, if_neg (Nat.not_lt.mpr hge), hnone]
  · intro h
    by_contra hge
    exact absurd (honly hge Crypto.CryptoError.invalidCiphertext h) (by decide)
  · intro hlt
    unfold Crypto.DecryptWithPassword
    rw [if_pos hlt]

/-- Concrete check of the amended C9 at the demonstration primitives: a
too-short input to Decrypt yields the malformed error; a failed tag check
(gcmOpen returning none on the 12-byte input's empty remainder) yields the
authentication error; a 43-byte blob yields the malformed error; and a
44-byte blob fails with the authentication error, not any other one. -/
theorem c9_error_taxonomy_witness :
    Crypto.Decrypt Crypto.demoGCM [1, 2, 3] (List.replicate 32 0)
      = Except.error Crypto.CryptoError.invalidCiphertext ∧
    Crypto.Decrypt Crypto.demoGCM (List.replicate 12 0) (List.replicate 32 0)
      = Except.error Crypto.CryptoError.decryptionFailed ∧
    Crypto.DecryptWithPassword Crypto.demoGCM Crypto.demoKDF (List.replicate 43 0) "pw"
      = Except.error Crypto.CryptoError.invalidCiphertext ∧
    Crypto.DecryptWithPassword Crypto.demoGCM Crypto.demoKDF (List.replicate 44 0) "pw"
      = Except.error Crypto.CryptoError.decryptionFailed :=
  ⟨(c9_decrypt_error_taxonomy Crypto.demoGCM Crypto.demoKDF (List.replicate 32 0)
      [1, 2, 3] (List.replicate 43 0) "pw").1 (by decide) (by decide),
   (c9_decrypt_error_taxonomy Crypto.demoGCM Crypto.demoKDF (List.replicate 32 0)
      (List.replicate 12 0) (List.replicate 43 0) "pw").2.1 (by decide) (by decide) rfl,
   (c9_decrypt_error_taxonomy Crypto.demoGCM Crypto.demoKDF (List.replicate 32 0)
      [1, 2, 3] (List.replicate 43 0) "pw").2.2.1.mpr (by decide),
   (c9_decrypt_error_taxonomy Crypto.demoGCM Crypto.demoKDF (List.replicate 32 0)
      [1, 2, 3] (List.replicate 44 0) "pw").2.2.2 (by decide)
     Crypto.CryptoError.decryptionFailed rfl ▸ rfl⟩

end GophKeeper
